import Mathlib

/-!
Shallow embedding of the authorization, filtering and CRUD logic of the
healthcare-platform backend (Express/Mongoose), together with proofs of the
behavioural claims about it.

Conventions used throughout:
* machine strings, arrays and documents are modelled by `String`, `List` and
  Lean structures whose fields are exactly the schema paths of the source;
* `Option` models a request field or document path that may be absent
  (JavaScript `undefined`);
* dates are epoch milliseconds modelled by `Int`;
* a MongoDB `$regex` clause whose pattern is a literal string with option `i`
  is a case-insensitive substring test, modelled by `ciContains`;
* `skip`/`limit` on a cursor are `List.drop`/`List.take` after the sort, and a
  Mongo sort specification is a `List.mergeSort` with the corresponding
  boolean order.
-/

/-! ## String helpers -/

/-- Does `pat` occur as a prefix of `l`?  (structural helper for `infixMatches`). -/
def prefixMatches : List Char → List Char → Bool
  | [], _ => true
  | _ :: _, [] => false
  | p :: ps, c :: cs => p == c && prefixMatches ps cs

/-- Does `pat` occur as a contiguous sublist of `l`? -/
def infixMatches (pat : List Char) : List Char → Bool
  | [] => pat.isEmpty
  | c :: cs => prefixMatches pat (c :: cs) || infixMatches pat cs

/-- JavaScript `s.includes(sub)`: case-sensitive substring test. -/
def jsIncludes (s sub : String) : Bool :=
  infixMatches sub.toList s.toList

/-- Semantics of a MongoDB `{$regex: pat, $options: "i"}` clause when `pat` is a
literal string without regex metacharacters: case-insensitive substring test. -/
def ciContains (hay pat : String) : Bool :=
  infixMatches (pat.toList.map Char.toLower) (hay.toList.map Char.toLower)

/-! ## Principal and the authorization middlewares (middleware/authMiddleware.js) -/

/-- The principal attached to `req.user` by `authenticateToken`. -/
structure Principal where
  id : String
  name : String
  email : String
  role : String
  department : Option String
  permissions : List String
  status : String
  deriving Repr, DecidableEq

/-- Outcome of an Express middleware: either fall through to the next handler
or stop with an HTTP status and message. -/
inductive MwResult where
  | next : MwResult
  | stop (status : Nat) (message : String) : MwResult
  deriving Repr, DecidableEq

/-- `requirePermission(permission)` from middleware/authMiddleware.js:
401 with no principal; admins bypass; otherwise the named permission must be in
the principal permission array, else 403. -/
def requirePermission (permission : String) (user : Option Principal) : MwResult :=
  match user with
  | none => .stop 401 "Authentication required"
  | some u =>
    if u.role = "admin" then .next
    else if u.permissions.contains permission then .next
    else .stop 403 "Insufficient permissions"

/-- `requireNewPermission(permission)` from middleware/authMiddleware.js
(the elevated variant guarding master-code operations).  Same logic as
`requirePermission` up to the 403 message. -/
def requireNewPermission (permission : String) (user : Option Principal) : MwResult :=
  match user with
  | none => .stop 401 "Authentication required"
  | some u =>
    if u.role = "admin" then .next
    else if u.permissions.contains permission then .next
    else .stop 403 "Insufficient permissions for this operation"

/-- The HTTP status category of a middleware decision (`none` = allowed). -/
def mwStatus : MwResult → Option Nat
  | .next => none
  | .stop s _ => some s

/-- Claim C1: a principal whose role is `admin` passes both permission-check
middlewares for every permission name, whatever its stored permission array
(including the empty one). -/
theorem admin_bypasses_both_permission_checks (u : Principal) (perm : String)
    (h : u.role = "admin") :
    requirePermission perm (some u) = MwResult.next ∧
      requireNewPermission perm (some u) = MwResult.next := by
  constructor <;> simp [requirePermission, requireNewPermission, h]

/-- Witness for C1: a concrete admin principal with an empty permission array
passes both checks for the permission name `delete_users`. -/
theorem admin_bypasses_both_permission_checks_witness :
    requirePermission "delete_users"
        (some { id := "u1", name := "Ada", email := "ada@example.com",
                role := "admin", department := none, permissions := [],
                status := "active" }) = MwResult.next ∧
      requireNewPermission "delete_users"
        (some { id := "u1", name := "Ada", email := "ada@example.com",
                role := "admin", department := none, permissions := [],
                status := "active" }) = MwResult.next :=
  admin_bypasses_both_permission_checks
    { id := "u1", name := "Ada", email := "ada@example.com", role := "admin",
      department := none, permissions := [], status := "active" }
    "delete_users" rfl

/-- Claim C8: the standard and the elevated permission checks have identical
evaluation logic: same status category on every input, the same allow
decision, and that shared logic is exactly 401 with no principal, allow for
role `admin` or a stored permission, 403 otherwise. -/
theorem requirePermission_equiv_requireNewPermission
    (perm : String) (user : Option Principal) :
    mwStatus (requirePermission perm user) = mwStatus (requireNewPermission perm user) ∧
      (requirePermission perm user = MwResult.next ↔
        requireNewPermission perm user = MwResult.next) ∧
      mwStatus (requirePermission perm user) =
        (match user with
         | none => some 401
         | some u =>
           if u.role = "admin" ∨ u.permissions.contains perm = true then none
           else some 403) := by
  match user with
  | none => simp [requirePermission, requireNewPermission, mwStatus]
  | some u =>
    by_cases hrole : u.role = "admin"
    · simp [requirePermission, requireNewPermission, mwStatus, hrole]
    · by_cases hperm : perm ∈ u.permissions
      · simp [requirePermission, requireNewPermission, mwStatus, hrole, hperm]
      · simp [requirePermission, requireNewPermission, mwStatus, hrole, hperm]


/-! ## Credential Verifier (middleware/authMiddleware.js, authenticateToken) -/

/-- A stored account document (models/User.js).  `status` is `Option` because
the middleware defensively handles its absence; the schema itself gives it a
default and restricts it to `active`/`inactive`/`suspended`. -/
structure UserDoc where
  id : String
  name : String
  email : String
  phone : Option String
  role : String
  department : Option String
  permissions : List String
  status : Option String
  password : String
  isEmailVerified : Bool
  mustChangePassword : Bool
  createdBy : Option String
  createdAt : Int
  deriving Repr, DecidableEq

/-- `User.findById` over an in-memory store. -/
def findById (store : List UserDoc) (id : String) : Option UserDoc :=
  store.find? (fun u => u.id == id)

/-- Helper for `jsSplit`: split a character list at every occurrence of `sep`. -/
def splitOnCharAux (sep : Char) : List Char → List Char → List (List Char)
  | [], acc => [acc.reverse]
  | c :: cs, acc =>
    if c == sep then acc.reverse :: splitOnCharAux sep cs []
    else splitOnCharAux sep cs (c :: acc)

/-- JavaScript `s.split(sep)` for a single-character separator. -/
def jsSplit (s : String) (sep : Char) : List String :=
  (splitOnCharAux sep s.toList []).map String.mk

/-- JavaScript `s.startsWith(pre)`. -/
def jsStartsWith (s pre : String) : Bool :=
  prefixMatches pre.toList s.toList

/-- Bearer-token extraction: the header must start with `Bearer` and the token
is `header.split(' ')[1]` (absent when the header has no second word). -/
def extractToken (authHeader : Option String) : Option String :=
  match authHeader with
  | some h => if jsStartsWith h "Bearer" then (jsSplit h ' ')[1]? else none
  | none => none

/-- JavaScript truthiness of a possibly-absent string field. -/
def jsTruthyStr : Option String → Bool
  | none => false
  | some s => s ≠ ""

/-- The principal built from a resolved account: permissions default to the
empty array and status defaults to `active` (`user.status || 'active'`). -/
def principalOf (user : UserDoc) : Principal :=
  { id := user.id, name := user.name, email := user.email, role := user.role,
    department := user.department, permissions := user.permissions,
    status := match user.status with
              | some s => if s = "" then "active" else s
              | none => "active" }

/-- Outcome of `authenticateToken`. -/
inductive AuthOutcome where
  | reject (status : Nat) (message : String)
  | accept (principal : Principal)
  deriving Repr, DecidableEq

/-- `authenticateToken` from middleware/authMiddleware.js.  `verify` models
`jwt.verify` under the server secret: it yields the embedded account id, or
`none` when signature or expiry verification fails (the thrown error is caught
and mapped to 401). -/
def authenticateToken (verify : String → Option String)
    (store : List UserDoc) (authHeader : Option String) : AuthOutcome :=
  match extractToken authHeader with
  | none => .reject 401 "Not authorized to access this route"
  | some token =>
    match verify token with
    | none => .reject 401 "Not authorized to access this route"
    | some uid =>
      match findById store uid with
      | none => .reject 401 "User not found"
      | some user =>
        if jsTruthyStr user.status = true ∧ user.status ≠ some "active" then
          .reject 401 "Account is not active. Please contact administrator."
        else .accept (principalOf user)

/-- A protected route: the route handler runs only when authentication
attached a principal. -/
def runProtected (auth : AuthOutcome) (handler : Principal → Nat × String) : Nat × String :=
  match auth with
  | .reject s m => (s, m)
  | .accept p => handler p

/-- The request was rejected as unauthenticated (HTTP 401). -/
def authRejected (r : AuthOutcome) : Prop :=
  ∃ m, r = AuthOutcome.reject 401 m

theorem authenticateToken_eq_of_no_token {verify : String → Option String}
    {store : List UserDoc} {ah : Option String} (h : extractToken ah = none) :
    authenticateToken verify store ah =
      .reject 401 "Not authorized to access this route" := by
  unfold authenticateToken
  rw [h]

theorem authenticateToken_eq_of_verify_none {verify : String → Option String}
    {store : List UserDoc} {ah : Option String} {t : String}
    (h1 : extractToken ah = some t) (h2 : verify t = none) :
    authenticateToken verify store ah =
      .reject 401 "Not authorized to access this route" := by
  unfold authenticateToken
  rw [h1]
  dsimp only
  rw [h2]

theorem authenticateToken_eq_of_user_none {verify : String → Option String}
    {store : List UserDoc} {ah : Option String} {t uid : String}
    (h1 : extractToken ah = some t) (h2 : verify t = some uid)
    (h3 : findById store uid = none) :
    authenticateToken verify store ah = .reject 401 "User not found" := by
  unfold authenticateToken
  rw [h1]
  dsimp only
  rw [h2]
  dsimp only
  rw [h3]

theorem authenticateToken_eq_of_user_some {verify : String → Option String}
    {store : List UserDoc} {ah : Option String} {t uid : String} {user : UserDoc}
    (h1 : extractToken ah = some t) (h2 : verify t = some uid)
    (h3 : findById store uid = some user) :
    authenticateToken verify store ah =
      if jsTruthyStr user.status = true ∧ user.status ≠ some "active" then
        .reject 401 "Account is not active. Please contact administrator."
      else .accept (principalOf user) := by
  unfold authenticateToken
  rw [h1]
  dsimp only
  rw [h2]
  dsimp only
  rw [h3]

/-- Claim C2: on a store whose accounts never carry an empty-string status
(the schema restricts `status` to its enum), `authenticateToken` rejects with
401 exactly when: no bearer token is present, token verification fails, the
embedded id resolves to no account, or the resolved account has a status other
than `active`.  Every outcome is either such a rejection or an attached
principal, and on rejection the route handler never runs. -/
theorem authenticateToken_rejects_iff (verify : String → Option String)
    (store : List UserDoc) (authHeader : Option String)
    (hstore : ∀ u ∈ store, u.status ≠ some "") :
    (authRejected (authenticateToken verify store authHeader) ↔
      extractToken authHeader = none
      ∨ (∃ t, extractToken authHeader = some t ∧ verify t = none)
      ∨ (∃ t uid, extractToken authHeader = some t ∧ verify t = some uid ∧
            findById store uid = none)
      ∨ (∃ t uid u, extractToken authHeader = some t ∧ verify t = some uid ∧
            findById store uid = some u ∧ u.status ≠ none ∧ u.status ≠ some "active"))
    ∧ ((∃ p, authenticateToken verify store authHeader = AuthOutcome.accept p)
        ∨ authRejected (authenticateToken verify store authHeader))
    ∧ (authRejected (authenticateToken verify store authHeader) →
        ∀ h₁ h₂, runProtected (authenticateToken verify store authHeader) h₁
          = runProtected (authenticateToken verify store authHeader) h₂) := by
  refine ⟨?_, ?_, ?_⟩
  · cases htok : extractToken authHeader with
    | none =>
      rw [authenticateToken_eq_of_no_token htok]
      exact ⟨fun _ => Or.inl rfl, fun _ => ⟨_, rfl⟩⟩
    | some t =>
      cases hv : verify t with
      | none =>
        rw [authenticateToken_eq_of_verify_none htok hv]
        exact ⟨fun _ => Or.inr (Or.inl ⟨t, rfl, hv⟩), fun _ => ⟨_, rfl⟩⟩
      | some uid =>
        cases hu : findById store uid with
        | none =>
          rw [authenticateToken_eq_of_user_none htok hv hu]
          exact ⟨fun _ => Or.inr (Or.inr (Or.inl ⟨t, uid, rfl, hv, hu⟩)),
            fun _ => ⟨_, rfl⟩⟩
        | some user =>
          have hne : user.status ≠ some "" :=
            hstore user (List.mem_of_find?_eq_some hu)
          rw [authenticateToken_eq_of_user_some htok hv hu]
          by_cases hcond : jsTruthyStr user.status = true ∧ user.status ≠ some "active"
          · rw [if_pos hcond]
            have hsome : user.status ≠ none := by
              intro hn
              have := hcond.1
              rw [hn] at this
              simp [jsTruthyStr] at this
            exact ⟨fun _ => Or.inr (Or.inr (Or.inr ⟨t, uid, user, rfl, hv, hu,
              hsome, hcond.2⟩)), fun _ => ⟨_, rfl⟩⟩
          · rw [if_neg hcond]
            constructor
            · rintro ⟨m, hm⟩
              exact AuthOutcome.noConfusion hm
            · rintro (h | ⟨t2, ht2, hv2⟩ | ⟨t2, uid2, ht2, hv2, hu2⟩ |
                ⟨t2, uid2, u2, ht2, hv2, hu2, hsome, hact⟩)
              · exact Option.noConfusion h
              · injection ht2 with ht2e
                subst ht2e
                rw [hv] at hv2
                exact Option.noConfusion hv2
              · injection ht2 with ht2e
                subst ht2e
                rw [hv] at hv2
                injection hv2 with hv2e
                subst hv2e
                rw [hu] at hu2
                exact Option.noConfusion hu2
              · injection ht2 with ht2e
                subst ht2e
                rw [hv] at hv2
                injection hv2 with hv2e
                subst hv2e
                rw [hu] at hu2
                injection hu2 with hu2e
                subst hu2e
                exfalso
                apply hcond
                refine ⟨?_, hact⟩
                cases hst : user.status with
                | none => exact absurd hst hsome
                | some s =>
                  rw [hst] at hne
                  simp only [jsTruthyStr, ne_eq, decide_eq_true_eq]
                  intro he
                  apply hne
                  rw [he]
  · cases htok : extractToken authHeader with
    | none =>
      rw [authenticateToken_eq_of_no_token htok]
      exact Or.inr ⟨_, rfl⟩
    | some t =>
      cases hv : verify t with
      | none =>
        rw [authenticateToken_eq_of_verify_none htok hv]
        exact Or.inr ⟨_, rfl⟩
      | some uid =>
        cases hu : findById store uid with
        | none =>
          rw [authenticateToken_eq_of_user_none htok hv hu]
          exact Or.inr ⟨_, rfl⟩
        | some user =>
          rw [authenticateToken_eq_of_user_some htok hv hu]
          by_cases hcond : jsTruthyStr user.status = true ∧ user.status ≠ some "active"
          · rw [if_pos hcond]
            exact Or.inr ⟨_, rfl⟩
          · rw [if_neg hcond]
            exact Or.inl ⟨_, rfl⟩
  · rintro ⟨m, hm⟩ h₁ h₂
    rw [hm]
    rfl

/-- Concrete verifier for the C2 witness: only the token `tok` is valid and it
embeds the id `u1`. -/
def verifyW : String → Option String :=
  fun t => if t = "tok" then some "u1" else none

/-- Concrete account for the C2 witness: a suspended staff member. -/
def userW : UserDoc :=
  { id := "u1", name := "Sam", email := "sam@example.com", phone := none,
    role := "staff", department := some "IT", permissions := [],
    status := some "suspended", password := "h1", isEmailVerified := true,
    mustChangePassword := false, createdBy := none, createdAt := 0 }

/-- Witness for C2: a valid token for a suspended account is rejected with
401. -/
theorem authenticateToken_rejects_iff_witness :
    authRejected (authenticateToken verifyW [userW] (some "Bearer tok")) := by
  have h := authenticateToken_rejects_iff verifyW [userW] (some "Bearer tok")
    (by intro u hu; fin_cases hu; decide)
  refine h.1.mpr (Or.inr (Or.inr (Or.inr ⟨"tok", "u1", userW, ?_, ?_, ?_, ?_, ?_⟩)))
  · decide
  · decide
  · decide
  · decide
  · decide

/-! ## Upload deletion / info endpoints (routes/uploadRoutes.js) -/

/-- Metadata returned by `fs.statSync`. -/
structure FileStats where
  size : Nat
  created : Int
  modified : Int
  deriving Repr, DecidableEq

/-- The traversal check of the upload routes:
`filename.includes('..') || filename.includes('/') || filename.includes('\\')`. -/
def hasTraversal (filename : String) : Bool :=
  jsIncludes filename ".." || jsIncludes filename "/" || jsIncludes filename "\\"

/-- `DELETE /api/upload/:filename`.  The filesystem is a map from filename to
stats; the handler returns the response and the filesystem after the request
(`fs.unlinkSync` removes the entry). -/
def deleteUploadHandler (fs : String → Option FileStats) (filename : String) :
    (Nat × String) × (String → Option FileStats) :=
  if hasTraversal filename then ((400, "Invalid filename"), fs)
  else
    match fs filename with
    | none => ((404, "File not found"), fs)
    | some _ =>
      ((200, "Image deleted successfully"),
        fun g => if g = filename then none else fs g)

/-- `GET /api/upload/:filename`: status plus the stats served on success. -/
def getUploadInfoHandler (fs : String → Option FileStats) (filename : String) :
    Nat × Option FileStats :=
  if hasTraversal filename then (400, none)
  else
    match fs filename with
    | none => (404, none)
    | some st => (200, some st)

/-- Claim C9: a filename containing `..`, `/` or `\` is answered with
400 `Invalid filename` by both the deletion and the info endpoint, before any
filesystem access: the response is the same for every filesystem state and the
filesystem is left untouched. -/
theorem traversal_filename_rejected_without_fs_access (filename : String)
    (h : hasTraversal filename = true) :
    (∀ fs, (deleteUploadHandler fs filename).1 = (400, "Invalid filename")
        ∧ (deleteUploadHandler fs filename).2 = fs)
    ∧ (∀ fs, getUploadInfoHandler fs filename = (400, none))
    ∧ (∀ fs fs2, (deleteUploadHandler fs filename).1 = (deleteUploadHandler fs2 filename).1
        ∧ getUploadInfoHandler fs filename = getUploadInfoHandler fs2 filename) := by
  refine ⟨fun fs => ⟨?_, ?_⟩, fun fs => ?_, fun fs fs2 => ⟨?_, ?_⟩⟩ <;>
    simp [deleteUploadHandler, getUploadInfoHandler, h]

/-- Witness for C9: the filename `../../etc/passwd` is rejected with 400 and
the (empty) filesystem is untouched. -/
theorem traversal_filename_rejected_without_fs_access_witness :
    (deleteUploadHandler (fun _ => none) "../../etc/passwd").1
        = (400, "Invalid filename")
      ∧ getUploadInfoHandler (fun _ => none) "../../etc/passwd" = (400, none) :=
  ⟨((traversal_filename_rejected_without_fs_access "../../etc/passwd"
      (by decide)).1 (fun _ => none)).1,
    (traversal_filename_rejected_without_fs_access "../../etc/passwd"
      (by decide)).2.1 (fun _ => none)⟩

/-! ## Sorting

The MongoDB sorts are modelled by a structural insertion sort, so that every
listing endpoint is a computable function of its store. -/

/-- Insert `a` into `l` before the first element `b` with `le a b`. -/
def orderedInsert {α : Type} (le : α → α → Bool) (a : α) : List α → List α
  | [] => [a]
  | b :: l => if le a b then a :: b :: l else b :: orderedInsert le a l

/-- Sort `l` by the boolean order `le`. -/
def sortBy {α : Type} (le : α → α → Bool) : List α → List α
  | [] => []
  | a :: l => orderedInsert le a (sortBy le l)

theorem mem_orderedInsert {α : Type} {le : α → α → Bool} {a x : α} :
    ∀ {l : List α}, x ∈ orderedInsert le a l ↔ x = a ∨ x ∈ l := by
  intro l
  induction l with
  | nil => simp [orderedInsert]
  | cons b t ih =>
    by_cases h : le a b = true
    · simp [orderedInsert, h]
    · simp only [orderedInsert, if_neg h, List.mem_cons, ih]
      tauto

theorem mem_sortBy {α : Type} {le : α → α → Bool} {x : α} :
    ∀ {l : List α}, x ∈ sortBy le l ↔ x ∈ l := by
  intro l
  induction l with
  | nil => simp [sortBy]
  | cons b t ih =>
    simp only [sortBy, mem_orderedInsert, List.mem_cons, ih]

theorem map_orderedInsert {α β : Type} (le : α → α → Bool) (le2 : β → β → Bool)
    (g : α → β) (h : ∀ x y, le2 (g x) (g y) = le x y) (a : α) :
    ∀ (l : List α), (orderedInsert le a l).map g = orderedInsert le2 (g a) (l.map g) := by
  intro l
  induction l with
  | nil => rfl
  | cons b t ih =>
    by_cases hc : le a b = true
    · simp [orderedInsert, hc, h]
    · simp only [orderedInsert, if_neg hc, List.map_cons, h a b,
        if_neg hc, ih]

theorem map_sortBy {α β : Type} (le : α → α → Bool) (le2 : β → β → Bool)
    (g : α → β) (h : ∀ x y, le2 (g x) (g y) = le x y) :
    ∀ (l : List α), (sortBy le l).map g = sortBy le2 (l.map g) := by
  intro l
  induction l with
  | nil => rfl
  | cons b t ih =>
    simp only [sortBy, List.map_cons, map_orderedInsert le le2 g h, ih]

/-- Membership in a sorted, paged window comes from membership in the
underlying list. -/
theorem mem_of_mem_paged {α : Type} {l : List α} {le : α → α → Bool}
    {s n : Nat} {a : α} (h : a ∈ ((sortBy le l).drop s).take n) : a ∈ l :=
  mem_sortBy.mp (List.mem_of_mem_drop (List.mem_of_mem_take h))

/-! ## Practitioner listings (routes/practitionerRoutes.js and
routes/publicPractitionerRoutes.js) -/

/-- A practitioner document (models/Practitioner.js).  The nested `fees`
object is flattened into `fees_initial`/`fees_followUp`. -/
structure PractitionerDoc where
  name : String
  title : String
  specialty : String
  experience : String
  bio : String
  locations : List String
  email : String
  phone : String
  address : String
  website : String
  fees_initial : Int
  fees_followUp : Int
  insurances : List String
  paymentOptions : List String
  sessionTypes : List String
  availability : String
  education : String
  imageUrl : String
  isFeatured : Bool
  status : String
  rating : Int
  createdAt : Int
  deriving Repr, DecidableEq

/-- `parseInt(q, 10) || 1`: absent or non-numeric input and `0` (falsy) fall
back to the default. -/
def pageOf (p : Option Nat) : Nat :=
  match p with
  | some n => if n = 0 then 1 else n
  | none => 1

/-- `parseInt(q, 10) || d` for a page-size parameter with default `d`. -/
def limitOf (d : Nat) (l : Option Nat) : Nat :=
  match l with
  | some n => if n = 0 then d else n
  | none => d

/-- `Math.ceil(total / limit)` for natural inputs and a positive limit. -/
def ceilDiv (total limit : Nat) : Nat :=
  (total + limit - 1) / limit

/-- The pagination block of a listing response. -/
structure Pagination where
  total : Nat
  page : Nat
  pages : Nat
  deriving Repr, DecidableEq

/-- Query parameters of `GET /api/practitioners` (routes/practitionerRoutes.js). -/
structure PractitionerQuery where
  search : Option String
  specialty : Option String
  location : Option String
  status : Option String
  isFeatured : Option String
  page : Option Nat
  limit : Option Nat
  deriving Repr, DecidableEq

/-- The filter object built by `GET /api/practitioners`: an `$or` of
case-insensitive regex matches over name/specialty/bio when a search term is
present, then exact matches for specialty, membership for location (a Mongo
equality on an array field), exact status, and a boolean `isFeatured`
(`req.query.isFeatured === 'true'`).  A present-but-empty string parameter is
falsy in JavaScript, so it adds no clause; an empty search term would add an
`$or` clause that matches everything, which is the same thing. -/
def practitionerMatches (q : PractitionerQuery) (p : PractitionerDoc) : Bool :=
  (match q.search with
   | some s => ciContains p.name s || ciContains p.specialty s || ciContains p.bio s
   | none => true)
  && (match q.specialty with
      | some sp => if sp = "" then true else p.specialty == sp
      | none => true)
  && (match q.location with
      | some l => if l = "" then true else p.locations.contains l
      | none => true)
  && (match q.status with
      | some st => if st = "" then true else p.status == st
      | none => true)
  && (match q.isFeatured with
      | some f => p.isFeatured == (f == "true")
      | none => true)

/-- The sort `{ isFeatured: -1, createdAt: -1 }`: featured first, then newest
first. -/
def practSortLe (a b : PractitionerDoc) : Bool :=
  (a.isFeatured && !b.isFeatured)
    || (a.isFeatured == b.isFeatured && decide (b.createdAt ≤ a.createdAt))

/-- Response shape of `GET /api/practitioners`. -/
structure PractitionerListResponse where
  count : Nat
  totalCount : Nat
  pagination : Pagination
  data : List PractitionerDoc
  deriving Repr, DecidableEq

/-- `GET /api/practitioners`: filter, sort, skip `(page-1)*limit`, take
`limit` (Mongo applies `skip` before `limit` regardless of call order), and
report `total` and `pages = Math.ceil(total/limit)`.  Page default 1, limit
default 10. -/
def getPractitioners (store : List PractitionerDoc) (q : PractitionerQuery) :
    PractitionerListResponse :=
  let page := pageOf q.page
  let limit := limitOf 10 q.limit
  let startIndex := (page - 1) * limit
  let matched := store.filter (practitionerMatches q)
  let data := ((sortBy practSortLe matched).drop startIndex).take limit
  { count := data.length, totalCount := matched.length,
    pagination := { total := matched.length, page := page,
                    pages := ceilDiv matched.length limit },
    data := data }

/-- A query parameter that may arrive as a single value or as an array. -/
inductive QueryParam where
  | one (s : String)
  | many (ss : List String)
  deriving Repr, DecidableEq

/-- Query parameters of `GET /api/public/practitioners`
(routes/publicPractitionerRoutes.js). -/
structure PublicPractitionerQuery where
  search : Option String
  specialty : Option QueryParam
  location : Option QueryParam
  insurance : Option QueryParam
  paymentOption : Option QueryParam
  sessionType : Option QueryParam
  maxFee : Option Int
  page : Option Nat
  limit : Option Nat
  deriving Repr, DecidableEq

/-- The filter of the public practitioner directory: always `status: active`,
spread together with the search `$or` and the categorical/array/fee filters. -/
def publicPractitionerMatches (q : PublicPractitionerQuery) (p : PractitionerDoc) : Bool :=
  p.status == "active"
  && (match q.search with
      | some s => ciContains p.name s || ciContains p.specialty s || ciContains p.bio s
      | none => true)
  && (match q.specialty with
      | some (QueryParam.one s) => if s = "" then true else p.specialty == s
      | some (QueryParam.many ss) => ss.contains p.specialty
      | none => true)
  && (match q.location with
      | some (QueryParam.one s) => if s = "" then true else p.locations.contains s
      | some (QueryParam.many ss) => p.locations.any (fun v => ss.contains v)
      | none => true)
  && (match q.insurance with
      | some (QueryParam.one s) => if s = "" then true else p.insurances.contains s
      | some (QueryParam.many ss) => p.insurances.any (fun v => ss.contains v)
      | none => true)
  && (match q.paymentOption with
      | some (QueryParam.one s) => if s = "" then true else p.paymentOptions.contains s
      | some (QueryParam.many ss) => p.paymentOptions.any (fun v => ss.contains v)
      | none => true)
  && (match q.sessionType with
      | some (QueryParam.one s) => if s = "" then true else p.sessionTypes.contains s
      | some (QueryParam.many ss) => p.sessionTypes.any (fun v => ss.contains v)
      | none => true)
  && (match q.maxFee with
      | some m => decide (p.fees_followUp ≤ m)
      | none => true)

/-- The sort `{ isFeatured: -1, rating: -1 }` of the public directory. -/
def publicPractSortLe (a b : PractitionerDoc) : Bool :=
  (a.isFeatured && !b.isFeatured)
    || (a.isFeatured == b.isFeatured && decide (b.rating ≤ a.rating))

/-- `GET /api/public/practitioners`: same pipeline with limit default 12 and
the rating sort. -/
def getPublicPractitioners (store : List PractitionerDoc)
    (q : PublicPractitionerQuery) : PractitionerListResponse :=
  let page := pageOf q.page
  let limit := limitOf 12 q.limit
  let startIndex := (page - 1) * limit
  let matched := store.filter (publicPractitionerMatches q)
  let data := ((sortBy publicPractSortLe matched).drop startIndex).take limit
  { count := data.length, totalCount := matched.length,
    pagination := { total := matched.length, page := page,
                    pages := ceilDiv matched.length limit },
    data := data }

theorem getPractitioners_data (store : List PractitionerDoc) (q : PractitionerQuery) :
    (getPractitioners store q).data =
      ((sortBy practSortLe (store.filter (practitionerMatches q))).drop
        ((pageOf q.page - 1) * limitOf 10 q.limit)).take (limitOf 10 q.limit) := rfl

theorem getPublicPractitioners_data (store : List PractitionerDoc)
    (q : PublicPractitionerQuery) :
    (getPublicPractitioners store q).data =
      ((sortBy publicPractSortLe (store.filter (publicPractitionerMatches q))).drop
        ((pageOf q.page - 1) * limitOf 12 q.limit)).take (limitOf 12 q.limit) := rfl

/-- One concrete practitioner record (used in witnesses); `i` is its creation
time so records are distinguishable. -/
def practW (i : Nat) : PractitionerDoc :=
  { name := "Practitioner", title := "T", specialty := "General",
    experience := "5 years", bio := "Helps clients", locations := ["Remote"],
    email := "p@example.com", phone := "1", address := "", website := "",
    fees_initial := 150, fees_followUp := 120, insurances := [],
    paymentOptions := [], sessionTypes := ["virtual"], availability := "",
    education := "", imageUrl := "", isFeatured := false, status := "active",
    rating := 0, createdAt := Int.ofNat i }

/-- The witness query: no filters, `page=2`, `limit=10`. -/
def practQueryW : PractitionerQuery :=
  { search := none, specialty := none, location := none, status := none,
    isFeatured := none, page := some 2, limit := some 10 }

/-- Claim C7: with `search="yoga"`, every practitioner returned by the staff
listing or the public directory has `yoga` as a case-insensitive substring of
its name, specialty or bio, and a stored record matching in none of the three
fields is never returned. -/
theorem search_yoga_filters_practitioners (store : List PractitionerDoc)
    (q : PractitionerQuery) (pq : PublicPractitionerQuery)
    (hs : q.search = some "yoga") (hps : pq.search = some "yoga") :
    (∀ p ∈ (getPractitioners store q).data,
      (ciContains p.name "yoga" || ciContains p.specialty "yoga"
        || ciContains p.bio "yoga") = true)
    ∧ (∀ p, (ciContains p.name "yoga" || ciContains p.specialty "yoga"
        || ciContains p.bio "yoga") = false → p ∉ (getPractitioners store q).data)
    ∧ (∀ p ∈ (getPublicPractitioners store pq).data,
      (ciContains p.name "yoga" || ciContains p.specialty "yoga"
        || ciContains p.bio "yoga") = true)
    ∧ (∀ p, (ciContains p.name "yoga" || ciContains p.specialty "yoga"
        || ciContains p.bio "yoga") = false →
        p ∉ (getPublicPractitioners store pq).data) := by
  have hstaff : ∀ p ∈ (getPractitioners store q).data,
      (ciContains p.name "yoga" || ciContains p.specialty "yoga"
        || ciContains p.bio "yoga") = true := by
    intro p hp
    rw [getPractitioners_data] at hp
    have hm := (List.mem_filter.mp (mem_of_mem_paged hp)).2
    rw [practitionerMatches, hs] at hm
    simp only [Bool.and_eq_true] at hm
    exact hm.1.1.1.1
  have hpub : ∀ p ∈ (getPublicPractitioners store pq).data,
      (ciContains p.name "yoga" || ciContains p.specialty "yoga"
        || ciContains p.bio "yoga") = true := by
    intro p hp
    rw [getPublicPractitioners_data] at hp
    have hm := (List.mem_filter.mp (mem_of_mem_paged hp)).2
    rw [publicPractitionerMatches, hps] at hm
    simp only [Bool.and_eq_true] at hm
    exact hm.1.1.1.1.1.1.2
  refine ⟨hstaff, ?_, hpub, ?_⟩
  · intro p hno hp
    rw [hstaff p hp] at hno
    exact Bool.noConfusion hno
  · intro p hno hp
    rw [hpub p hp] at hno
    exact Bool.noConfusion hno

/-- A practitioner whose specialty contains `yoga` (capitalised differently). -/
def yogaPractW : PractitionerDoc :=
  { practW 0 with specialty := "Yoga Therapy" }

/-- Witness for C7: in a one-record store the returned record does contain
`yoga` in one of the searched fields. -/
theorem search_yoga_filters_practitioners_witness :
    (ciContains yogaPractW.name "yoga" || ciContains yogaPractW.specialty "yoga"
      || ciContains yogaPractW.bio "yoga") = true := by
  refine (search_yoga_filters_practitioners [yogaPractW]
    { search := some "yoga", specialty := none, location := none, status := none,
      isFeatured := none, page := none, limit := none }
    { search := some "yoga", specialty := none, location := none, insurance := none,
      paymentOption := none, sessionType := none, maxFee := none, page := none,
      limit := none } rfl rfl).1 yogaPractW ?_
  decide

/-! ## Events (models/Event.js, routes/publicEventRoutes.js in its two source
variants, and the update handler of routes/eventRoutes.js) -/

/-- An event document with exactly the paths declared by `eventSchema` in
models/Event.js (plus the `timestamps` field `createdAt`).  Note that the
schema declares no `updatedBy` or `createdBy` path. -/
structure EventDoc where
  title : String
  description : String
  date : Int
  time : String
  location : String
  type : String
  status : String
  isFeatured : Bool
  registeredAttendees : Int
  imageUrl : String
  registrationUrl : String
  organizer : String
  createdAt : Int
  deriving Repr, DecidableEq

/-- The request-time calendar values used by the `dateRange` switch of the
public event listing: `new Date()`, `today + 7 days`, end of this month, and
the bounds of next month. -/
structure Clock where
  now : Int
  nextWeek : Int
  thisMonthEnd : Int
  nextMonthStart : Int
  nextMonthEnd : Int
  deriving Repr, DecidableEq

/-- Is `d` within the optional bounds `[lo, hi]`? -/
def dateWithin (lo hi : Option Int) (d : Int) : Bool :=
  (match lo with
   | some l => decide (l ≤ d)
   | none => true)
  && (match hi with
      | some h => decide (d ≤ h)
      | none => true)

/-- The `query.date` bounds of `GET /api/public/events`
(routes/publicEventRoutes.js): the default is `{$gte: new Date()}`, and a
recognised `dateRange` replaces it with the corresponding window; an
unrecognised value keeps the default. -/
def publicEventsDateBounds (clock : Clock) (dateRange : Option String) :
    Option Int × Option Int :=
  match dateRange with
  | none => (some clock.now, none)
  | some dr =>
    if dr = "next7days" then (some clock.now, some clock.nextWeek)
    else if dr = "thisMonth" then (some clock.now, some clock.thisMonthEnd)
    else if dr = "nextMonth" then (some clock.nextMonthStart, some clock.nextMonthEnd)
    else (some clock.now, none)

/-- The filter of `GET /api/public/events` (routes/publicEventRoutes.js):
status `upcoming` or `ongoing`, the date bounds, the search `$or` over
title/description/location, and a `type` filter unless the parameter is
falsy or `all`. -/
def publicEventMatches (clock : Clock)
    (search typeFilter dateRange : Option String) (e : EventDoc) : Bool :=
  (e.status == "upcoming" || e.status == "ongoing")
  && dateWithin (publicEventsDateBounds clock dateRange).1
      (publicEventsDateBounds clock dateRange).2 e.date
  && (match search with
      | some s => ciContains e.title s || ciContains e.description s
          || ciContains e.location s
      | none => true)
  && (match typeFilter with
      | some t => if t = "" ∨ t = "all" then true else e.type == t
      | none => true)

/-- The sort `{ isFeatured: -1, date: 1 }` of both public event listings. -/
def eventSortLe (a b : EventDoc) : Bool :=
  (a.isFeatured && !b.isFeatured)
    || (a.isFeatured == b.isFeatured && decide (a.date ≤ b.date))

/-- Response shape of the public event listings. -/
structure EventListResponse where
  count : Nat
  pagination : Option Pagination
  data : List EventDoc
  deriving Repr, DecidableEq

/-- `GET /api/public/events`, first source variant
(routes/publicEventRoutes.js): filter, featured-then-date sort, pagination
with limit default 6, and a pagination block. -/
def getPublicEvents (clock : Clock) (store : List EventDoc)
    (search typeFilter dateRange : Option String) (page limit : Option Nat) :
    EventListResponse :=
  let pg := pageOf page
  let lim := limitOf 6 limit
  let startIndex := (pg - 1) * lim
  let matched := store.filter (publicEventMatches clock search typeFilter dateRange)
  let data := ((sortBy eventSortLe matched).drop startIndex).take lim
  { count := data.length,
    pagination := some { total := matched.length, page := pg,
                         pages := ceilDiv matched.length lim },
    data := data }

/-- The filter of the second, free-tier-optimized source variant of
`GET /api/public/events` (its header comment names the same file): only the
status clause remains — the comment `Remove date filter to reduce query
complexity on free tier` drops the date default — plus the search `$or` when
the trimmed term is nonempty. -/
def publicEventsOptimizedMatches (search : Option String) (e : EventDoc) : Bool :=
  (e.status == "upcoming" || e.status == "ongoing")
  && (match search with
      | some s =>
        if s.trim = "" then true
        else ciContains e.title s.trim || ciContains e.description s.trim
          || ciContains e.location s.trim
      | none => true)

/-- The optimized variant of `GET /api/public/events`: no pagination
parameters, a flat `limit(50)` after the featured-then-date sort. -/
def getPublicEventsOptimized (store : List EventDoc) (search : Option String) :
    EventListResponse :=
  let matched := store.filter (publicEventsOptimizedMatches search)
  let data := (sortBy eventSortLe matched).take 50
  { count := data.length, pagination := none, data := data }

theorem getPublicEvents_data (clock : Clock) (store : List EventDoc)
    (search typeFilter dateRange : Option String) (page limit : Option Nat) :
    (getPublicEvents clock store search typeFilter dateRange page limit).data =
      ((sortBy eventSortLe
        (store.filter (publicEventMatches clock search typeFilter dateRange))).drop
          ((pageOf page - 1) * limitOf 6 limit)).take (limitOf 6 limit) := rfl

theorem getPublicEventsOptimized_data (store : List EventDoc) (search : Option String) :
    (getPublicEventsOptimized store search).data =
      (sortBy eventSortLe (store.filter (publicEventsOptimizedMatches search))).take 50 := rfl

/-- A past event (one day before a request arriving at epoch time 0) whose
stored status is still `upcoming`. -/
def pastUpcomingEventW : EventDoc :=
  { title := "Past workshop", description := "D", date := -86400000,
    time := "10:00", location := "Hall", type := "workshop",
    status := "upcoming", isFeatured := false, registeredAttendees := 0,
    imageUrl := "", registrationUrl := "", organizer := "u1", createdAt := -2 }

/-- Counterexample to claim C5 as stated: the free-tier-optimized variant of
the public event listing, given no date filter, returns an event whose date is
strictly before the request time 0 — the returned data is not all non-past. -/
theorem public_events_default_counterexample :
    pastUpcomingEventW ∈ (getPublicEventsOptimized [pastUpcomingEventW] none).data
    ∧ pastUpcomingEventW.date < 0 := by
  constructor
  · rw [getPublicEventsOptimized_data]
    decide
  · decide

/-- Claim C5 amended: with no date filter supplied, every event returned by
either source variant of the public listing has status `upcoming` or
`ongoing` (so never `cancelled` or `completed`); the first variant
additionally returns only events dated at or after the request time, but the
optimized variant dropped that date default and can return past events. -/
theorem public_events_default_status_filter (clock : Clock)
    (store : List EventDoc) (search typeFilter : Option String)
    (page limit : Option Nat) :
    (∀ e ∈ (getPublicEventsOptimized store search).data,
      e.status = "upcoming" ∨ e.status = "ongoing")
    ∧ (∀ e ∈ (getPublicEvents clock store search typeFilter none page limit).data,
      (e.status = "upcoming" ∨ e.status = "ongoing") ∧ clock.now ≤ e.date) := by
  constructor
  · intro e he
    rw [getPublicEventsOptimized_data] at he
    have hm := (List.mem_filter.mp
      (mem_sortBy.mp (List.mem_of_mem_take he))).2
    unfold publicEventsOptimizedMatches at hm
    simp only [Bool.and_eq_true, Bool.or_eq_true, beq_iff_eq] at hm
    exact hm.1
  · intro e he
    rw [getPublicEvents_data] at he
    have hm := (List.mem_filter.mp (mem_of_mem_paged he)).2
    unfold publicEventMatches at hm
    simp only [Bool.and_eq_true, Bool.or_eq_true, beq_iff_eq] at hm
    refine ⟨hm.1.1.1, ?_⟩
    have hd := hm.1.1.2
    unfold publicEventsDateBounds at hd
    simp only [dateWithin, Bool.and_eq_true, decide_eq_true_eq] at hd
    exact hd.1

/-- A future event used by the C5 witness. -/
def futureEventW : EventDoc :=
  { pastUpcomingEventW with title := "Future workshop", date := 86400000 }

/-- Witness for C5 (amended): a returned event of the first variant has a
non-cancelled status and a date at or after the request time. -/
theorem public_events_default_status_filter_witness :
    (futureEventW.status = "upcoming" ∨ futureEventW.status = "ongoing")
    ∧ (0 : Int) ≤ futureEventW.date := by
  have h := (public_events_default_status_filter
    { now := 0, nextWeek := 604800000, thisMonthEnd := 1000000000,
      nextMonthStart := 1000000001, nextMonthEnd := 2000000000 }
    [futureEventW] none none none none).2 futureEventW ?_
  · exact h
  · rw [getPublicEvents_data]
    decide

/-- Claim C6: with `page=2`, `limit=10` and 25 matching records, both cited
listings — `GET /api/practitioners` and `GET /api/public/events` — report
`pages = 3` and `total = 25`, skip exactly `(2-1)*10 = 10` sorted records,
and return at most 10; in general, for both endpoints, the page defaults to
1, the skip is `(page-1)*limit` and the reported `pages` is
`ceil(total/limit)`. -/
theorem listing_pagination (store : List PractitionerDoc) (q : PractitionerQuery)
    (clock : Clock) (estore : List EventDoc)
    (esearch etype edateRange : Option String)
    (h25 : (store.filter (practitionerMatches q)).length = 25)
    (hp : q.page = some 2) (hl : q.limit = some 10)
    (he25 : (estore.filter
      (publicEventMatches clock esearch etype edateRange)).length = 25) :
    (getPractitioners store q).pagination.pages = 3
    ∧ (getPractitioners store q).pagination.total = 25
    ∧ (getPractitioners store q).data.length ≤ 10
    ∧ (getPractitioners store q).data =
        ((sortBy practSortLe (store.filter (practitionerMatches q))).drop
          ((2 - 1) * 10)).take 10
    ∧ (getPublicEvents clock estore esearch etype edateRange (some 2)
        (some 10)).pagination = some { total := 25, page := 2, pages := 3 }
    ∧ (getPublicEvents clock estore esearch etype edateRange (some 2)
        (some 10)).data.length ≤ 10
    ∧ (getPublicEvents clock estore esearch etype edateRange (some 2)
        (some 10)).data =
        ((sortBy eventSortLe (estore.filter
          (publicEventMatches clock esearch etype edateRange))).drop
            ((2 - 1) * 10)).take 10
    ∧ (∀ st2 q2, (getPractitioners st2 q2).pagination.pages
          = ceilDiv (getPractitioners st2 q2).pagination.total (limitOf 10 q2.limit)
        ∧ (getPractitioners st2 q2).data.length ≤ limitOf 10 q2.limit
        ∧ (getPractitioners st2 q2).pagination.page = pageOf q2.page
        ∧ (getPractitioners st2 q2).data =
            ((sortBy practSortLe (st2.filter (practitionerMatches q2))).drop
              ((pageOf q2.page - 1) * limitOf 10 q2.limit)).take (limitOf 10 q2.limit))
    ∧ (∀ ck2 est2 s2 t2 d2 p2 l2,
        (getPublicEvents ck2 est2 s2 t2 d2 p2 l2).pagination
          = some { total := (est2.filter (publicEventMatches ck2 s2 t2 d2)).length,
                   page := pageOf p2,
                   pages := ceilDiv
                     (est2.filter (publicEventMatches ck2 s2 t2 d2)).length
                     (limitOf 6 l2) }
        ∧ (getPublicEvents ck2 est2 s2 t2 d2 p2 l2).data.length ≤ limitOf 6 l2
        ∧ (getPublicEvents ck2 est2 s2 t2 d2 p2 l2).data =
            ((sortBy eventSortLe (est2.filter (publicEventMatches ck2 s2 t2 d2))).drop
              ((pageOf p2 - 1) * limitOf 6 l2)).take (limitOf 6 l2))
    ∧ pageOf none = 1 := by
  refine ⟨?_, ?_, ?_, ?_, ?_, ?_, ?_, ?_, ?_, rfl⟩
  · simp [getPractitioners, h25, hl, limitOf, ceilDiv]
  · simp [getPractitioners, h25]
  · rw [getPractitioners_data, hl]
    exact le_trans (List.length_take_le _ _) (by simp [limitOf])
  · rw [getPractitioners_data, hp, hl]
    rfl
  · simp [getPublicEvents, he25, pageOf, limitOf, ceilDiv]
  · rw [getPublicEvents_data]
    exact List.length_take_le _ _
  · rw [getPublicEvents_data]
    rfl
  · intro st2 q2
    exact ⟨rfl, List.length_take_le _ _, rfl, rfl⟩
  · intro ck2 est2 s2 t2 d2 p2 l2
    exact ⟨rfl, List.length_take_le _ _, rfl⟩

/-- A fixed calendar for the C6 witness (request time 0). -/
def clockW : Clock :=
  { now := 0, nextWeek := 604800000, thisMonthEnd := 2505600000,
    nextMonthStart := 2505600001, nextMonthEnd := 5097600000 }

/-- An upcoming event dated after the witness request time. -/
def eventCW : EventDoc :=
  { pastUpcomingEventW with
    title := "Upcoming workshop"
    date := 5
    createdAt := 3 }

/-- Witness for C6: 25 matching records with `page=2`, `limit=10` give
`pages = 3`, `total = 25` and at most 10 returned records, on both the
practitioner listing and the public event listing. -/
theorem listing_pagination_witness :
    (getPractitioners ((List.range 25).map practW) practQueryW).pagination.pages = 3
    ∧ (getPractitioners ((List.range 25).map practW) practQueryW).pagination.total = 25
    ∧ (getPractitioners ((List.range 25).map practW) practQueryW).data.length ≤ 10
    ∧ (getPublicEvents clockW (List.replicate 25 eventCW) none none none (some 2)
        (some 10)).pagination = some { total := 25, page := 2, pages := 3 }
    ∧ (getPublicEvents clockW (List.replicate 25 eventCW) none none none (some 2)
        (some 10)).data.length ≤ 10 := by
  have hfull : ((List.range 25).map practW).filter
      (practitionerMatches practQueryW) = (List.range 25).map practW := by
    rw [List.filter_eq_self]
    intro a _
    rfl
  have h := listing_pagination ((List.range 25).map practW) practQueryW clockW
    (List.replicate 25 eventCW) none none none
    (by rw [hfull]; simp) rfl rfl (by decide)
  exact ⟨h.1, h.2.1, h.2.2.1, h.2.2.2.2.1, h.2.2.2.2.2.1⟩

/-! ## Event update (routes/eventRoutes.js, PUT /api/events/:id) -/

/-- The request body of `PUT /api/events/:id`: each field is applied only when
present (`!== undefined`).  `registeredAttendees` models
`parseInt(...) || 0`. -/
structure EventUpdateBody where
  title : Option String
  description : Option String
  date : Option Int
  time : Option String
  location : Option String
  type : Option String
  status : Option String
  isFeatured : Option Bool
  registeredAttendees : Option Int
  imageUrl : Option String
  registrationUrl : Option String
  deriving Repr, DecidableEq

/-- The `updateData` object the route builds, including its
`updatedBy = req.user.id` entry (`Track who updated the event`). -/
structure EventUpdateData where
  title : Option String
  description : Option String
  date : Option Int
  time : Option String
  location : Option String
  type : Option String
  status : Option String
  isFeatured : Option Bool
  registeredAttendees : Option Int
  imageUrl : Option String
  registrationUrl : Option String
  updatedBy : Option String
  deriving Repr, DecidableEq

/-- Build `updateData` from the request body exactly as the route does:
strings are trimmed, `imageUrl` falls back to the empty string when falsy, and
`updatedBy := req.user.id` is always added. -/
def buildEventUpdateData (body : EventUpdateBody) (callerId : String) :
    EventUpdateData :=
  { title := body.title.map String.trim,
    description := body.description.map String.trim,
    date := body.date,
    time := body.time.map String.trim,
    location := body.location.map String.trim,
    type := body.type,
    status := body.status,
    isFeatured := body.isFeatured,
    registeredAttendees := body.registeredAttendees,
    imageUrl := body.imageUrl.map (fun s => s),
    registrationUrl := body.registrationUrl.map (fun s => if s = "" then "" else s.trim),
    updatedBy := some callerId }

/-- Enum and bound validators that `runValidators: true` applies to the
updated paths of `eventSchema`; `urlValid` models the `new URL` check. -/
def eventUpdateValid (urlValid : String → Bool) (u : EventUpdateData) : Bool :=
  (match u.type with
   | some t => ["workshop", "seminar", "support-group", "training", "community"].contains t
   | none => true)
  && (match u.status with
      | some s => ["upcoming", "ongoing", "completed", "cancelled"].contains s
      | none => true)
  && (match u.registeredAttendees with
      | some n => decide (0 ≤ n)
      | none => true)
  && (match u.registrationUrl with
      | some r => r == "" || urlValid r
      | none => true)
  && (match u.title with
      | some t => decide (t.length ≤ 200)
      | none => true)
  && (match u.description with
      | some d => decide (d.length ≤ 2000)
      | none => true)
  && (match u.location with
      | some l => decide (l.length ≤ 200)
      | none => true)

/-- `findByIdAndUpdate` applies `updateData` to the stored document under the
schema in strict mode (the Mongoose default): only paths declared by
`eventSchema` are written, and the schema declares no `updatedBy` path, so
that entry of `updateData` is silently dropped — the document type has no such
field to receive it. -/
def applyEventUpdate (e : EventDoc) (u : EventUpdateData) : EventDoc :=
  { title := u.title.getD e.title,
    description := u.description.getD e.description,
    date := u.date.getD e.date,
    time := u.time.getD e.time,
    location := u.location.getD e.location,
    type := u.type.getD e.type,
    status := u.status.getD e.status,
    isFeatured := u.isFeatured.getD e.isFeatured,
    registeredAttendees := u.registeredAttendees.getD e.registeredAttendees,
    imageUrl := u.imageUrl.getD e.imageUrl,
    registrationUrl := u.registrationUrl.getD e.registrationUrl,
    organizer := e.organizer,
    createdAt := e.createdAt }

/-- Outcome of `PUT /api/events/:id`. -/
inductive UpdateEventResult where
  | notFound
  | validationError
  | ok (updated : EventDoc)
  deriving Repr, DecidableEq

/-- `PUT /api/events/:id`: find the event, build `updateData`, run the update
validators, and persist `applyEventUpdate`.  The event store is an association
list from id to document. -/
def updateEventHandler (urlValid : String → Bool)
    (store : List (String × EventDoc)) (id : String) (body : EventUpdateBody)
    (callerId : String) : UpdateEventResult × List (String × EventDoc) :=
  match store.find? (fun kv => kv.1 == id) with
  | none => (.notFound, store)
  | some (_, e) =>
    let u := buildEventUpdateData body callerId
    if eventUpdateValid urlValid u then
      let e2 := applyEventUpdate e u
      (.ok e2, store.map (fun kv => if kv.1 == id then (kv.1, e2) else kv))
    else (.validationError, store)

/-- The body `{status: "cancelled"}` with no other field. -/
def cancelOnlyBody : EventUpdateBody :=
  { title := none, description := none, date := none, time := none,
    location := none, type := none, status := some "cancelled",
    isFeatured := none, registeredAttendees := none, imageUrl := none,
    registrationUrl := none }

/-- Claim C4, what the code actually does: updating an event with only
`{status: "cancelled"}` leaves every other schema field unchanged, and the
route does put `updatedBy = caller` into `updateData` — but the persisted
document is exactly the old one with only `status` replaced, carrying no
`updatedBy` at all, because `eventSchema` declares no such path and strict
mode drops it. -/
theorem updateEvent_cancelled_frame (urlValid : String → Bool)
    (store : List (String × EventDoc)) (id caller : String) (e : EventDoc)
    (hfind : store.find? (fun kv => kv.1 == id) = some (id, e)) :
    (buildEventUpdateData cancelOnlyBody caller).updatedBy = some caller
    ∧ (updateEventHandler urlValid store id cancelOnlyBody caller).1
        = UpdateEventResult.ok { e with status := "cancelled" }
    ∧ (updateEventHandler urlValid store id cancelOnlyBody caller).2
        = store.map (fun kv =>
            if kv.1 == id then (kv.1, { e with status := "cancelled" }) else kv) := by
  refine ⟨rfl, ?_, ?_⟩ <;>
  · unfold updateEventHandler
    rw [hfind]
    rfl

/-- A stored event for the C4 witness. -/
def eventW : EventDoc :=
  { title := "Town hall", description := "Community meeting", date := 1000,
    time := "18:00", location := "Main hall", type := "community",
    status := "upcoming", isFeatured := true, registeredAttendees := 12,
    imageUrl := "/uploads/a.png", registrationUrl := "", organizer := "u9",
    createdAt := 5 }

/-- Witness for C4: on a concrete one-event store the cancelled-only update
persists exactly `{eventW with status := "cancelled"}` while `updateData`
carried `updatedBy = "u1"`. -/
theorem updateEvent_cancelled_frame_witness :
    (buildEventUpdateData cancelOnlyBody "u1").updatedBy = some "u1"
    ∧ (updateEventHandler (fun _ => true) [("e1", eventW)] "e1" cancelOnlyBody "u1").1
        = UpdateEventResult.ok { eventW with status := "cancelled" } := by
  have h := updateEvent_cancelled_frame (fun _ => true) [("e1", eventW)] "e1" "u1"
    eventW (by decide)
  exact ⟨h.1, h.2.1⟩

/-! ## Employee management (routes/employeeRoutes.js) -/

/-- The Employee Role Set. -/
def employeeRoles : List String := ["admin", "manager", "staff", "support"]

/-- The employee view served by every employee endpoint: a `UserDoc` without
its `password` (`select('-password')` on reads, `delete password` on
create/update responses). -/
structure EmployeeView where
  id : String
  name : String
  email : String
  phone : Option String
  role : String
  department : Option String
  permissions : List String
  status : Option String
  isEmailVerified : Bool
  mustChangePassword : Bool
  createdBy : Option String
  createdAt : Int
  deriving Repr, DecidableEq

/-- Project the password away. -/
def toView (u : UserDoc) : EmployeeView :=
  { id := u.id, name := u.name, email := u.email, phone := u.phone,
    role := u.role, department := u.department, permissions := u.permissions,
    status := u.status, isEmailVerified := u.isEmailVerified,
    mustChangePassword := u.mustChangePassword, createdBy := u.createdBy,
    createdAt := u.createdAt }

/-- Query parameters of `GET /api/employees` after the destructuring defaults
`page = 1, limit = 50`. -/
structure EmployeeQuery where
  search : Option String
  role : Option String
  status : Option String
  department : Option String
  page : Nat
  limit : Nat
  deriving Repr, DecidableEq

/-- The filter of `GET /api/employees`: employee roles only (replaced by an
exact role when a valid one is supplied), the search `$or` over
name/email/department, and exact status/department matches; a regex clause
does not match a document whose field is absent, and a falsy parameter adds no
clause. -/
def employeeMatches (q : EmployeeQuery) (u : UserDoc) : Bool :=
  (match q.role with
   | some r =>
     if employeeRoles.contains r then u.role == r
     else employeeRoles.contains u.role
   | none => employeeRoles.contains u.role)
  && (match q.search with
      | some s => ciContains u.name s || ciContains u.email s
          || (match u.department with
              | some d => ciContains d s
              | none => false)
      | none => true)
  && (match q.status with
      | some st => if st = "" then true else u.status == some st
      | none => true)
  && (match q.department with
      | some d => if d = "" then true else u.department == some d
      | none => true)

/-- The sort `{ createdAt: -1 }`. -/
def empSortLe (a b : UserDoc) : Bool :=
  decide (b.createdAt ≤ a.createdAt)

/-- Response shape of `GET /api/employees`. -/
structure EmployeeListResponse where
  data : List EmployeeView
  totalCount : Nat
  currentPage : Nat
  totalPages : Nat
  deriving Repr, DecidableEq

/-- `GET /api/employees`: filter, newest-first sort, skip `(page-1)*limit`,
take `limit`, passwords excluded from the selection. -/
def getEmployees (store : List UserDoc) (q : EmployeeQuery) : EmployeeListResponse :=
  { data := ((((sortBy empSortLe (store.filter (employeeMatches q)))).drop
      ((q.page - 1) * q.limit)).take q.limit).map toView,
    totalCount := (store.filter (employeeMatches q)).length,
    currentPage := q.page,
    totalPages := ceilDiv (store.filter (employeeMatches q)).length q.limit }

/-- `GET /api/employees/:id`: `none` models the 404 for an unknown id or a
non-employee role. -/
def getEmployeeById (store : List UserDoc) (id : String) : Option EmployeeView :=
  match findById store id with
  | some u => if employeeRoles.contains u.role then some (toView u) else none
  | none => none

/-- Request body of `POST /api/employees`. -/
structure CreateEmployeeBody where
  name : Option String
  email : Option String
  phone : Option String
  role : Option String
  department : Option String
  status : Option String
  permissions : Option (List String)
  password : Option String
  deriving Repr, DecidableEq

/-- Outcome of `POST /api/employees`. -/
inductive CreateEmployeeResult where
  | badRequest (message : String)
  | created (view : EmployeeView)
  deriving Repr, DecidableEq

/-- `POST /api/employees`: required-field check (`!x`, so empty strings fail
it too), role validation, duplicate-email check, then creation with
`status || 'active'`, `permissions || []`, the password hashed by the
pre-save middleware, and the password deleted from the response. -/
def createEmployee (hash : String → String) (newId : String) (now : Int)
    (store : List UserDoc) (callerId : String) (body : CreateEmployeeBody) :
    CreateEmployeeResult × List UserDoc :=
  match body.name, body.email, body.password, body.role, body.department with
  | some name, some email, some password, some role, some department =>
    if name = "" ∨ email = "" ∨ password = "" ∨ role = "" ∨ department = "" then
      (.badRequest "Name, email, password, role, and department are required", store)
    else if ¬ (employeeRoles.contains role = true) then
      (.badRequest "Invalid role. Must be admin, manager, staff, or support", store)
    else if store.any (fun u => u.email == email) then
      (.badRequest "Email already exists", store)
    else
      let doc : UserDoc :=
        { id := newId, name := name, email := email, phone := body.phone,
          role := role, department := some department,
          permissions := body.permissions.getD [],
          status := some (match body.status with
                          | some s => if s = "" then "active" else s
                          | none => "active"),
          password := hash password, isEmailVerified := false,
          mustChangePassword := false, createdBy := some callerId,
          createdAt := now }
      (.created (toView doc), store ++ [doc])
  | _, _, _, _, _ =>
    (.badRequest "Name, email, password, role, and department are required", store)

/-- Request body of `PUT /api/employees/:id`. -/
structure UpdateEmployeeBody where
  name : Option String
  email : Option String
  phone : Option String
  role : Option String
  department : Option String
  status : Option String
  permissions : Option (List String)
  deriving Repr, DecidableEq

/-- Outcome of `PUT /api/employees/:id`. -/
inductive UpdateEmployeeResult where
  | notFound
  | badRequest (message : String)
  | updated (view : EmployeeView)
  deriving Repr, DecidableEq

/-- Apply the truthiness-guarded field updates of `PUT /api/employees/:id`
(`if (name) ...`; `phone` is presence-guarded, `permissions` is an array and
arrays are always truthy). -/
def applyEmployeeUpdate (employee : UserDoc) (body : UpdateEmployeeBody) : UserDoc :=
  { employee with
    name := match body.name with
            | some n => if n = "" then employee.name else n
            | none => employee.name,
    email := match body.email with
             | some em => if em = "" then employee.email else em
             | none => employee.email,
    phone := match body.phone with
             | some p => some p
             | none => employee.phone,
    role := match body.role with
            | some r => if r = "" then employee.role else r
            | none => employee.role,
    department := match body.department with
                  | some d => if d = "" then employee.department else some d
                  | none => employee.department,
    status := match body.status with
              | some s => if s = "" then employee.status else some s
              | none => employee.status,
    permissions := match body.permissions with
                   | some ps => ps
                   | none => employee.permissions }

/-- `PUT /api/employees/:id`: find the employee (404 on unknown id or
non-employee role), reject an email change colliding with an existing account,
reject an invalid role, then save the guarded updates and answer with the
password deleted. -/
def updateEmployee (store : List UserDoc) (id : String) (body : UpdateEmployeeBody) :
    UpdateEmployeeResult × List UserDoc :=
  match findById store id with
  | none => (.notFound, store)
  | some employee =>
    if ¬ (employeeRoles.contains employee.role = true) then (.notFound, store)
    else if (match body.email with
             | some em => em ≠ "" && em != employee.email
                 && store.any (fun u => u.email == em)
             | none => false) then
      (.badRequest "Email already exists", store)
    else if (match body.role with
             | some r => r ≠ "" && !(employeeRoles.contains r)
             | none => false) then
      (.badRequest "Invalid role. Must be admin, manager, staff, or support", store)
    else
      (.updated (toView (applyEmployeeUpdate employee body)),
        store.map (fun u => if u.id == id then applyEmployeeUpdate employee body else u))

/-- Replace every stored password hash according to `f`. -/
def mapPw (f : UserDoc → String) (store : List UserDoc) : List UserDoc :=
  store.map (fun u => { u with password := f u })

/-- Claim C10: no employee endpoint response depends on any stored password
hash — replacing every stored hash arbitrarily leaves the list, single-get,
create and update responses unchanged, so the hash never flows to the
caller. -/
theorem employee_endpoints_ignore_stored_passwords (f : UserDoc → String)
    (store : List UserDoc) (q : EmployeeQuery) (id : String)
    (hash : String → String) (newId : String) (now : Int) (callerId : String)
    (cbody : CreateEmployeeBody) (ubody : UpdateEmployeeBody) :
    getEmployees (mapPw f store) q = getEmployees store q
    ∧ getEmployeeById (mapPw f store) id = getEmployeeById store id
    ∧ (createEmployee hash newId now (mapPw f store) callerId cbody).1
        = (createEmployee hash newId now store callerId cbody).1
    ∧ (updateEmployee (mapPw f store) id ubody).1
        = (updateEmployee store id ubody).1 := by
  refine ⟨?_, ?_, ?_, ?_⟩
  · unfold getEmployees mapPw
    rw [List.filter_map]
    rw [show (employeeMatches q ∘ fun u => { u with password := f u })
        = employeeMatches q from rfl]
    rw [← map_sortBy empSortLe empSortLe (fun u => { u with password := f u })
      (fun _ _ => rfl)]
    rw [← List.map_drop, ← List.map_take, List.map_map, List.length_map]
    rfl
  · unfold getEmployeeById findById mapPw
    rw [List.find?_map]
    rw [show ((fun u : UserDoc => u.id == id) ∘ fun u => { u with password := f u })
        = (fun u : UserDoc => u.id == id) from rfl]
    cases store.find? (fun u => u.id == id) with
    | none => rfl
    | some u => rfl
  · unfold createEmployee mapPw
    cases cbody.name <;> cases cbody.email <;> cases cbody.password <;>
      cases cbody.role <;> cases cbody.department <;>
      first
      | rfl
      | (simp only [List.any_map, apply_ite Prod.fst]
         rfl)
  · unfold updateEmployee findById mapPw
    rw [List.find?_map]
    rw [show ((fun u : UserDoc => u.id == id) ∘ fun u => { u with password := f u })
        = (fun u : UserDoc => u.id == id) from rfl]
    cases store.find? (fun u => u.id == id) with
    | none => rfl
    | some u =>
      simp only [Option.map_some', List.any_map, apply_ite Prod.fst]
      rfl

/-! ## Employee deletion (routes/employeeRoutes.js, DELETE /api/employees/:id) -/

/-- Outcome of the deletion route, middleware included. -/
inductive EmpDeleteResult where
  | stopped (status : Nat) (message : String)
  | forbidden (message : String)
  | notFound
  | invalidOp (message : String)
  | deleted
  deriving Repr, DecidableEq

/-- The `DELETE /api/employees/:id` handler: master-code check against the
server secret, employee lookup, last-admin guard
(`countDocuments({role: 'admin'}) <= 1`), self-deletion guard, then
`findByIdAndDelete`. -/
def deleteEmployeeHandler (masterEnv : String) (store : List UserDoc)
    (callerId : String) (targetId : String) (bodyMaster : Option String) :
    EmpDeleteResult × List UserDoc :=
  if bodyMaster ≠ some masterEnv then
    (.forbidden "Invalid master security code. Access denied.", store)
  else
    match findById store targetId with
    | none => (.notFound, store)
    | some employee =>
      if ¬ (employeeRoles.contains employee.role = true) then (.notFound, store)
      else if employee.role = "admin"
          ∧ (store.filter (fun u => u.role == "admin")).length ≤ 1 then
        (.invalidOp "Cannot delete the last admin user", store)
      else if employee.id = callerId then
        (.invalidOp "Cannot delete your own account", store)
      else (.deleted, store.filter (fun u => u.id != targetId))

/-- The full route: `requireNewPermission('delete_users')` then the handler,
with `req.user.id` as the caller id. -/
def deleteEmployeeRoute (masterEnv : String) (store : List UserDoc)
    (caller : Principal) (targetId : String) (bodyMaster : Option String) :
    EmpDeleteResult × List UserDoc :=
  match requireNewPermission "delete_users" (some caller) with
  | .stop s m => (.stopped s m, store)
  | .next => deleteEmployeeHandler masterEnv store caller.id targetId bodyMaster

/-- A sole admin account whose principal attempts destructive operations. -/
def soleAdminW : UserDoc :=
  { id := "a1", name := "Root", email := "root@example.com", phone := none,
    role := "admin", department := some "IT", permissions := [],
    status := some "active", password := "h", isEmailVerified := true,
    mustChangePassword := false, createdBy := none, createdAt := 0 }

/-- Counterexample to claim C3 as stated: when the sole admin deletes their own
account (with the correct master code and the admin permission bypass), the
target is the caller, yet the operation fails with the last-admin message,
not with `Cannot delete your own account` — the last-admin guard runs first. -/
theorem delete_own_sole_admin_message_counterexample :
    (deleteEmployeeRoute "MC" [soleAdminW] (principalOf soleAdminW) "a1" (some "MC")).1
        = EmpDeleteResult.invalidOp "Cannot delete the last admin user"
    ∧ ¬ ((deleteEmployeeRoute "MC" [soleAdminW] (principalOf soleAdminW) "a1"
          (some "MC")).1
        = EmpDeleteResult.invalidOp "Cannot delete your own account")
    ∧ soleAdminW.id = (principalOf soleAdminW).id := by
  refine ⟨?_, ?_, rfl⟩ <;> decide

/-- Claim C3 amended: with the elevated permission and the correct master
secret, (a) deleting a target that is the sole `admin`-role record fails with
`InvalidOperation` (`Cannot delete the last admin user`) and deletes nothing;
(b) deleting the own account fails with `InvalidOperation` and deletes
nothing — with the message `Cannot delete your own account` whenever the
last-admin guard (checked first) does not also apply. -/
theorem deleteEmployee_safeguards (masterEnv : String) (store : List UserDoc)
    (caller : Principal) (targetId : String) (target : UserDoc)
    (hperm : caller.role = "admin" ∨ "delete_users" ∈ caller.permissions)
    (hfind : findById store targetId = some target) :
    (target.role = "admin" →
      (store.filter (fun u => u.role == "admin")).length = 1 →
      deleteEmployeeRoute masterEnv store caller targetId (some masterEnv)
        = (EmpDeleteResult.invalidOp "Cannot delete the last admin user", store))
    ∧ (target.id = caller.id → employeeRoles.contains target.role = true →
        ¬ (target.role = "admin"
            ∧ (store.filter (fun u => u.role == "admin")).length ≤ 1) →
        deleteEmployeeRoute masterEnv store caller targetId (some masterEnv)
          = (EmpDeleteResult.invalidOp "Cannot delete your own account", store))
    ∧ (target.id = caller.id → employeeRoles.contains target.role = true →
        ∃ m, deleteEmployeeRoute masterEnv store caller targetId (some masterEnv)
          = (EmpDeleteResult.invalidOp m, store)) := by
  have hnext : requireNewPermission "delete_users" (some caller) = MwResult.next := by
    rcases hperm with h | h
    · simp [requireNewPermission, h]
    · by_cases hr : caller.role = "admin"
      · simp [requireNewPermission, hr]
      · simp [requireNewPermission, hr, h]
  have hroute : deleteEmployeeRoute masterEnv store caller targetId (some masterEnv)
      = deleteEmployeeHandler masterEnv store caller.id targetId (some masterEnv) := by
    unfold deleteEmployeeRoute
    rw [hnext]
  have hmaster : ¬ (some masterEnv ≠ some masterEnv) := fun h => h rfl
  refine ⟨?_, ?_, ?_⟩
  · intro hrole hcount
    rw [hroute]
    unfold deleteEmployeeHandler
    rw [if_neg hmaster, hfind]
    dsimp only
    rw [if_neg (by simp [employeeRoles, hrole]),
      if_pos ⟨hrole, le_of_eq hcount⟩]
  · intro hself hcont hnotlast
    rw [hroute]
    unfold deleteEmployeeHandler
    rw [if_neg hmaster, hfind]
    dsimp only
    rw [if_neg (by simp only [Classical.not_not]; exact hcont), if_neg hnotlast,
      if_pos hself]
  · intro hself hcont
    by_cases hlast : target.role = "admin"
        ∧ (store.filter (fun u => u.role == "admin")).length ≤ 1
    · refine ⟨"Cannot delete the last admin user", ?_⟩
      rw [hroute]
      unfold deleteEmployeeHandler
      rw [if_neg hmaster, hfind]
      dsimp only
      rw [if_neg (by simp only [Classical.not_not]; exact hcont), if_pos hlast]
    · refine ⟨"Cannot delete your own account", ?_⟩
      rw [hroute]
      unfold deleteEmployeeHandler
      rw [if_neg hmaster, hfind]
      dsimp only
      rw [if_neg (by simp only [Classical.not_not]; exact hcont), if_neg hlast,
        if_pos hself]

/-- A second admin record, so the store of the C3 witness has two admins. -/
def secondAdminW : UserDoc :=
  { soleAdminW with
    id := "a2"
    name := "Root2"
    email := "root2@example.com"
    createdAt := 1 }

/-- A staff record holding the elevated permission in its principal. -/
def staffDeleterW : UserDoc :=
  { soleAdminW with
    id := "s1"
    name := "Del"
    email := "del@example.com"
    role := "staff"
    permissions := ["delete_users"]
    createdAt := 2 }

/-- Witness for C3: deleting the sole admin (by a staff caller with the
elevated permission) fails with the last-admin message; an admin deleting
their own account in a two-admin store fails with the own-account message;
both leave the store unchanged. -/
theorem deleteEmployee_safeguards_witness :
    deleteEmployeeRoute "MC" [soleAdminW, staffDeleterW] (principalOf staffDeleterW)
        "a1" (some "MC")
      = (EmpDeleteResult.invalidOp "Cannot delete the last admin user",
          [soleAdminW, staffDeleterW])
    ∧ deleteEmployeeRoute "MC" [soleAdminW, secondAdminW] (principalOf soleAdminW)
        "a1" (some "MC")
      = (EmpDeleteResult.invalidOp "Cannot delete your own account",
          [soleAdminW, secondAdminW]) := by
  constructor
  · exact (deleteEmployee_safeguards "MC" [soleAdminW, staffDeleterW]
      (principalOf staffDeleterW) "a1" soleAdminW (Or.inr (by decide))
      (by decide)).1 rfl (by decide)
  · exact (deleteEmployee_safeguards "MC" [soleAdminW, secondAdminW]
      (principalOf soleAdminW) "a1" soleAdminW (Or.inl rfl)
      (by decide)).2.1 rfl (by decide) (by decide)
